import Mathlib

/-!
ngsLD: command-line parsing and the LD statistics.

A shallow embedding of `src/parse_args.cpp` (`init_pars`, `parse_cmd_args`) over the
`params` record of `src/ngsLD.hpp`, followed by the parts of the pairwise engine that
`ngsLD.hpp` only declares (`bcf_pair_LD`, `calc_pair_LD` and the loop that dispatches
them), which are modelled from the specification.

Conventions of the embedding

* `char*` fields are `Option String` (`none` is `NULL`).
* `uint64_t` and `uint` fields are `Nat`; every store into them goes through
  `uint64_of_int` / `uint_of_int`, the C conversion of an `int` (value mod 2^64, mod 2^32).
* `double` fields are `CDouble`: a rational for a finite value, the two infinities and NaN,
  with the comparisons of IEEE 754 (every ordered comparison with NaN is false, `!=` is true).
* `getopt_long_only`, `atoi` and `atof` are libc: a command line is the list of what the
  successive calls of `getopt_long_only` return, each element carrying the value that
  `atoi(optarg)` / `atof(optarg)` yields where the `switch` applies one of them.
-/

namespace NgsLD

/-! ## C scalars -/

/-- A C `double`, as far as `parse_cmd_args` looks at one. -/
inductive CDouble where
  | finite (q : ℚ)
  | posInf
  | negInf
  | nan
  deriving DecidableEq

namespace CDouble

/-- The C comparison `a > b` on doubles. -/
def gt : CDouble → CDouble → Bool
  | nan, _ => false
  | _, nan => false
  | negInf, _ => false
  | _, posInf => false
  | posInf, _ => true
  | finite _, negInf => true
  | finite a, finite b => decide (b < a)

/-- The C comparison `a != b` on doubles. -/
def ne : CDouble → CDouble → Bool
  | nan, _ => true
  | _, nan => true
  | finite a, finite b => decide (a ≠ b)
  | posInf, posInf => false
  | negInf, negInf => false
  | _, _ => true

/-- The C comparison `a < b` on doubles. -/
def lt (a b : CDouble) : Bool := gt b a

/-- The C comparison `a >= b` on doubles. -/
def ge : CDouble → CDouble → Bool
  | nan, _ => false
  | _, nan => false
  | a, b => !(gt b a)

/-- Conversion of an `int` constant to `double`. -/
def ofInt (z : Int) : CDouble := finite z

end CDouble

/-- Conversion `int → uint` (`unsigned int`, 32 bits): the value modulo 2^32. -/
def uint_of_int (v : Int) : Nat := (v % 4294967296).toNat

/-- Conversion `int → uint64_t`: the value modulo 2^64. -/
def uint64_of_int (v : Int) : Nat := (v % 18446744073709551616).toNat

/-- The range of a C `int`, which is what `atoi` returns. -/
def isCInt (v : Int) : Prop := -2147483648 ≤ v ∧ v ≤ 2147483647

instance (v : Int) : Decidable (isCInt v) := by
  unfold isCInt
  infer_instance

/-! ## `params` (ngsLD.hpp) -/

/-- The input-argument fields of `params`, that is the fields `init_pars` and
`parse_cmd_args` touch. `min_r2` is written by both functions of `parse_args.cpp`
(with `double` values) although the struct of `ngsLD.hpp` does not declare it; it is kept
as a field so that every store of the two functions is accounted for. The run-time data of the struct (`out_fh`, `in_geno_lkl`, `labels`,
`pos_dist`, `geno_lkl`, `expected_geno`, `thread_pool`) is neither read nor written by
them and is left out. -/
structure params where
  in_geno : Option String
  in_bin : Bool
  in_probs : Bool
  in_logscale : Bool
  n_ind : Nat
  n_sites : Nat
  pos : Option String
  max_dist : CDouble
  min_r2 : CDouble
  call_geno : Bool
  N_thresh : CDouble
  call_thresh : CDouble
  out : Option String
  n_threads : Nat
  version : Bool
  verbose : Nat
  deriving DecidableEq

/-- `init_pars`: every input-argument field gets its default. -/
def init_pars (_pars : params) : params :=
  { in_geno := none
    in_bin := false
    in_probs := false
    in_logscale := false
    n_ind := 0
    n_sites := 0
    pos := none
    max_dist := .finite 100
    min_r2 := .finite (1 / 2)
    call_geno := false
    N_thresh := .finite 0
    call_thresh := .finite 0
    out := none
    n_threads := 1
    version := false
    verbose := 1 }

/-! ## The command line -/

/-- One return of `getopt_long_only` in the loop of `parse_cmd_args`, named after the
entry of `long_options` it stands for (the comment gives the option character).
`unrecognised` is any other return value (`'?'`: unknown or ambiguous option, missing
argument), which the `switch` sends to `default`. -/
inductive Opt where
  | geno (optarg : String)      -- 'g'
  | probs                       -- 'p'
  | log_scale                   -- 'l'
  | n_ind (atoi : Int)          -- 'n'
  | n_sites (atoi : Int)        -- 's'
  | pos (optarg : String)       -- 'Z'
  | max_dist (atof : CDouble)   -- 'd'
  | min_r2 (atof : CDouble)     -- 'r'
  | call_geno                   -- 'c'
  | N_thresh (atof : CDouble)   -- 'N'
  | call_thresh (atof : CDouble) -- 'C'
  | out (optarg : String)       -- 'o'
  | n_threads (atoi : Int)      -- 'x'
  | version                     -- 'v'
  | verbose (atoi : Int)        -- 'V'
  | unrecognised
  deriving DecidableEq

/-- How a call that does not return ends. -/
inductive Fatal where
  /-- The `exit(-1)` of the `default` branch of the option `switch`. -/
  | exit_default
  /-- A call `error(func, msg)`. -/
  | error (func : String) (msg : String)
  deriving DecidableEq

/-- Modelled from the spec: `error`, which `parse_cmd_args` calls and whose definition is
not in `parse_args.cpp` or `ngsLD.hpp`. Section 7 of the specification: a fatal
configuration error "abort[s] the run immediately with a descriptive message" and
"produce[s] a single clear message and non-zero exit"; the call does not return. -/
def error {α : Type} (func msg : String) : Except Fatal α :=
  .error (.error func msg)

/-- The body of the `switch (c)` for one option. -/
def switch_case (pars : params) : Opt → Except Fatal params
  | .geno optarg => .ok { pars with in_geno := some optarg }
  | .probs => .ok { pars with in_probs := true }
  | .log_scale => .ok { pars with in_logscale := true }
  | .n_ind v => .ok { pars with n_ind := uint64_of_int v }
  | .n_sites v => .ok { pars with n_sites := uint64_of_int v }
  | .pos optarg => .ok { pars with pos := some optarg }
  | .max_dist v => .ok { pars with max_dist := v }
  | .min_r2 v => .ok { pars with min_r2 := v }
  | .call_geno => .ok { pars with call_geno := true }
  | .N_thresh v => .ok { pars with N_thresh := v, call_geno := true }
  | .call_thresh v => .ok { pars with call_thresh := v, call_geno := true }
  | .out optarg => .ok { pars with out := some optarg }
  | .n_threads v => .ok { pars with n_threads := uint_of_int v }
  | .version => .ok { pars with version := true }
  | .verbose v => .ok { pars with verbose := uint_of_int v }
  | .unrecognised => .error .exit_default

/-- The `while ((c = getopt_long_only(...)) != -1) switch (c) ...` loop. -/
def option_loop : List Opt → params → Except Fatal params
  | [], pars => .ok pars
  | c :: rest, pars =>
    match switch_case pars c with
    | .ok pars1 => option_loop rest pars1
    | .error e => .error e

/-- The name `__FUNCTION__` expands to inside `parse_cmd_args`. -/
def FUNCTION : String := "parse_cmd_args"

/-- The "Check Arguments" block: seven `if (...) error(__FUNCTION__, ...)` in a row. -/
def check_arguments (pars : params) : Except Fatal params :=
  if pars.in_geno = none then
    error FUNCTION "genotype input file (--geno) missing!"
  else if pars.n_ind = 0 then
    error FUNCTION "number of individuals (--n_ind) missing!"
  else if pars.n_sites = 0 then
    error FUNCTION "number of sites (--n_sites) missing!"
  else if pars.pos = none ∧ pars.max_dist.gt (.ofInt (-1)) = true then
    error FUNCTION "position file necessary in order to filter by maximum distance!"
  else if pars.call_geno = true ∧ pars.in_probs = false then
    error FUNCTION "can only call genotypes from likelihoods/probabilities!"
  else if pars.out = none then
    error FUNCTION "output prefix (--out) missing!"
  else if pars.n_threads < 1 then
    error FUNCTION "number of threads cannot be less than 1!"
  else
    .ok pars

/-- `parse_cmd_args`: the option loop, then the checks. The two `printf` blocks between
them write to standard output only and leave `pars` as it is. -/
def parse_cmd_args (pars : params) (argv : List Opt) : Except Fatal params :=
  match option_loop argv pars with
  | .ok pars1 => check_arguments pars1
  | .error e => .error e

/-- The way `main` uses the two functions: `init_pars` then `parse_cmd_args`. -/
def run (argv : List Opt) (pars0 : params) : Except Fatal params :=
  parse_cmd_args (init_pars pars0) argv

/-- Some content of a `params` before `init_pars` runs on it. -/
def uninitialised : params :=
  ⟨some "?", true, true, true, 7, 7, some "?", .nan, .nan, true, .nan, .nan, some "?", 7, true, 7⟩

/-! ## Vocabulary of the statements -/

/-- The option character `getopt_long_only` returns for an option (third field of its
`long_options` entry), `'?'` for an unrecognised one. -/
def Opt.char : Opt → Char
  | .geno _ => 'g'
  | .probs => 'p'
  | .log_scale => 'l'
  | .n_ind _ => 'n'
  | .n_sites _ => 's'
  | .pos _ => 'Z'
  | .max_dist _ => 'd'
  | .min_r2 _ => 'r'
  | .call_geno => 'c'
  | .N_thresh _ => 'N'
  | .call_thresh _ => 'C'
  | .out _ => 'o'
  | .n_threads _ => 'x'
  | .version => 'v'
  | .verbose _ => 'V'
  | .unrecognised => '?'

/-- The command line holds only options of `long_options`. -/
def recognised (argv : List Opt) : Prop := ∀ c ∈ argv, c ≠ Opt.unrecognised

instance (argv : List Opt) : Decidable (recognised argv) := by
  unfold recognised
  infer_instance

/-- The command line gives the option whose option character is `ch`. -/
def gives (ch : Char) (argv : List Opt) : Prop := ch ∈ argv.map Opt.char

instance (ch : Char) (argv : List Opt) : Decidable (gives ch argv) := by
  unfold gives
  infer_instance

/-- The command line gives `--geno`. -/
abbrev gives_geno (argv : List Opt) : Prop := gives 'g' argv

/-- The command line gives `--out`. -/
abbrev gives_out (argv : List Opt) : Prop := gives 'o' argv

/-- The command line gives `--pos`. -/
abbrev gives_pos (argv : List Opt) : Prop := gives 'Z' argv

/-- The command line gives `--probs`. -/
abbrev gives_probs (argv : List Opt) : Prop := gives 'p' argv

/-- The command line gives `--max_dist`. -/
abbrev gives_max_dist (argv : List Opt) : Prop := gives 'd' argv

/-- The command line gives `--call_geno`, `--N_thresh` or `--call_thresh`. -/
abbrev gives_calling (argv : List Opt) : Prop :=
  gives 'c' argv ∨ gives 'N' argv ∨ gives 'C' argv

/-- What `atoi` read for `--n_ind`: the value of its last occurrence, `none` when the
option is missing. -/
def parsed_n_ind : List Opt → Option Int
  | [] => none
  | .n_ind v :: rest => some ((parsed_n_ind rest).getD v)
  | _ :: rest => parsed_n_ind rest

/-- What `atoi` read for `--n_sites`: the value of its last occurrence, `none` when the
option is missing. -/
def parsed_n_sites : List Opt → Option Int
  | [] => none
  | .n_sites v :: rest => some ((parsed_n_sites rest).getD v)
  | _ :: rest => parsed_n_sites rest

/-- The messages handed to `error` in a run of `parse_cmd_args`. -/
def reported : Except Fatal params → List String
  | .ok _ => []
  | .error .exit_default => []
  | .error (.error _ msg) => [msg]

/-- The seven conditions on a parsed configuration in their fixed order, each with its
message: genotype file missing, `n_ind = 0`, `n_sites = 0`, position file missing with
`max_dist > -1`, `call_geno` without `in_probs`, output prefix missing, `n_threads < 1`. -/
def conditions (pars : params) : List (Bool × String) :=
  [ (decide (pars.in_geno = none), "genotype input file (--geno) missing!"),
    (decide (pars.n_ind = 0), "number of individuals (--n_ind) missing!"),
    (decide (pars.n_sites = 0), "number of sites (--n_sites) missing!"),
    (decide (pars.pos = none) && pars.max_dist.gt (.ofInt (-1)),
      "position file necessary in order to filter by maximum distance!"),
    (pars.call_geno && !pars.in_probs, "can only call genotypes from likelihoods/probabilities!"),
    (decide (pars.out = none), "output prefix (--out) missing!"),
    (decide (pars.n_threads < 1), "number of threads cannot be less than 1!") ]

/-- The messages of the violated conditions, in the fixed order. -/
def violated (pars : params) : List String :=
  ((conditions pars).filter (fun c => c.1)).map (fun c => c.2)

/-! ## LD statistics and pair enumeration (declared in `ngsLD.hpp`, defined elsewhere) -/

/-- A haplotype-frequency vector `(p11, p12, p21, p22)` over the four two-locus
haplotype classes, in exact arithmetic. -/
structure HaplotypeFrequencyVector where
  p11 : ℚ
  p12 : ℚ
  p21 : ℚ
  p22 : ℚ

namespace HaplotypeFrequencyVector

/-- A valid vector: every entry is at least 0 and the entries sum to 1. -/
def valid (h : HaplotypeFrequencyVector) : Prop :=
  0 ≤ h.p11 ∧ 0 ≤ h.p12 ∧ 0 ≤ h.p21 ∧ 0 ≤ h.p22 ∧ h.p11 + h.p12 + h.p21 + h.p22 = 1

instance (h : HaplotypeFrequencyVector) : Decidable h.valid := by
  unfold valid
  infer_instance

/-- Modelled from the spec: the marginal `p1_allele1 = p11 + p12` of section 4.3; the
code that derives the LD statistics (`bcf_pair_LD`, `calc_pair_LD`) is only declared in
`ngsLD.hpp`. -/
def p1_allele1 (h : HaplotypeFrequencyVector) : ℚ := h.p11 + h.p12

/-- Modelled from the spec: the marginal `p2_allele1 = p11 + p21` of section 4.3; the
code that derives the LD statistics is only declared in `ngsLD.hpp`. -/
def p2_allele1 (h : HaplotypeFrequencyVector) : ℚ := h.p11 + h.p21

/-- Modelled from the spec: `D = p11 − (p1_allele1 × p2_allele1)` of section 4.3; the
code that derives the LD statistics is only declared in `ngsLD.hpp`. -/
def D (h : HaplotypeFrequencyVector) : ℚ := h.p11 - h.p1_allele1 * h.p2_allele1

/-- Modelled from the spec: `D_max = min(p1_allele1×(1−p2_allele1), (1−p1_allele1)×p2_allele1)`
if `D ≥ 0`, else `min(p1_allele1×p2_allele1, (1−p1_allele1)×(1−p2_allele1))` (section 4.3);
the code that derives the LD statistics is only declared in `ngsLD.hpp`. -/
def D_max (h : HaplotypeFrequencyVector) : ℚ :=
  if h.D ≥ 0 then
    min (h.p1_allele1 * (1 - h.p2_allele1)) ((1 - h.p1_allele1) * h.p2_allele1)
  else
    min (h.p1_allele1 * h.p2_allele1) ((1 - h.p1_allele1) * (1 - h.p2_allele1))

/-- Modelled from the spec: `D′ = D / D_max` of section 4.3; the code that derives the LD
statistics is only declared in `ngsLD.hpp`. -/
def D_prime (h : HaplotypeFrequencyVector) : ℚ := h.D / h.D_max

/-- Modelled from the spec: `r² = D² / (p1_allele1×(1−p1_allele1)×p2_allele1×(1−p2_allele1))`,
"undefined [...] when any marginal is exactly 0 or 1" (section 4.3); the code that derives
the LD statistics is only declared in `ngsLD.hpp`. -/
def r2 (h : HaplotypeFrequencyVector) : Option ℚ :=
  if h.p1_allele1 = 0 ∨ h.p1_allele1 = 1 ∨ h.p2_allele1 = 0 ∨ h.p2_allele1 = 1 then
    none
  else
    some (h.D ^ 2 /
      (h.p1_allele1 * (1 - h.p1_allele1) * h.p2_allele1 * (1 - h.p2_allele1)))

end HaplotypeFrequencyVector

namespace PairwiseDispatcher

/-- Modelled from the spec: the window of one site `i` in the "sliding-window scan over
the sorted position array" of section 4.5, which emits `(i, j)` for `j = i+1, i+2, ...`
while `position[j] − position[i] ≤ max_dist` and stops "once the window closes"; the loop
that submits the `calc_pair_LD` jobs is not in `parse_args.cpp` or `ngsLD.hpp`.
`rest` holds the positions of the sites from `j` on. -/
def window (max_dist : ℚ) (i : Nat) (position_i : ℚ) : Nat → List ℚ → List (Nat × Nat)
  | _, [] => []
  | j, position_j :: rest =>
    if position_j - position_i ≤ max_dist then
      (i, j) :: window max_dist i position_i (j + 1) rest
    else
      []

/-- Modelled from the spec: the pairs `(i, j)`, `j = i+1, i+2, ...`, of one site when
"distance filtering is disabled" (section 4.5: pairs are enumerated "unconditionally");
the loop that submits the `calc_pair_LD` jobs is not in the sources at hand. -/
def unfiltered (i : Nat) : Nat → List ℚ → List (Nat × Nat)
  | _, [] => []
  | j, _ :: rest => (i, j) :: unfiltered i (j + 1) rest

/-- Modelled from the spec: the scan of section 4.5 over the sites from `i` on, one
window per site; the loop that submits the `calc_pair_LD` jobs is not in the sources at
hand. `max_dist = none` is distance filtering disabled. -/
def scan (max_dist : Option ℚ) : Nat → List ℚ → List (Nat × Nat)
  | _, [] => []
  | i, position_i :: rest =>
    (match max_dist with
      | some d => window d i position_i (i + 1) rest
      | none => unfiltered i (i + 1) rest) ++ scan max_dist (i + 1) rest

/-- Modelled from the spec: the pairs the PairwiseDispatcher of section 4.5 emits for a
position array, in emission order; the loop that submits the `calc_pair_LD` jobs is not in
the sources at hand. -/
def emitted (position : List ℚ) (max_dist : Option ℚ) : List (Nat × Nat) :=
  scan max_dist 0 position

end PairwiseDispatcher

end NgsLD

namespace NgsLD

/-! ## Facts about the option loop -/

theorem option_loop_nil (p : params) : option_loop [] p = .ok p := rfl

theorem option_loop_cons_ok {c : Opt} {rest : List Opt} {p p1 : params}
    (h : switch_case p c = .ok p1) : option_loop (c :: rest) p = option_loop rest p1 := by
  simp [option_loop, h]

theorem option_loop_cons_error {c : Opt} {rest : List Opt} {p : params} {e : Fatal}
    (h : switch_case p c = .error e) : option_loop (c :: rest) p = .error e := by
  simp [option_loop, h]

/-- A successful loop over `c :: rest` is a successful case followed by a successful loop. -/
theorem option_loop_cons_inv {c : Opt} {rest : List Opt} {p q : params}
    (h : option_loop (c :: rest) p = .ok q) :
    ∃ p1, switch_case p c = .ok p1 ∧ option_loop rest p1 = .ok q := by
  cases hc : switch_case p c with
  | ok p1 => exact ⟨p1, rfl, by rw [option_loop_cons_ok hc] at h; exact h⟩
  | error e => rw [option_loop_cons_error hc] at h; cases h

/-- A property that every case of the command line preserves holds after the loop. -/
theorem option_loop_preserves (P : params → Prop) :
    ∀ (argv : List Opt),
      (∀ c ∈ argv, ∀ p p1, P p → switch_case p c = .ok p1 → P p1) →
      ∀ p q, P p → option_loop argv p = .ok q → P q
  | [], _, p, q, hp, h => by
    rw [option_loop_nil] at h
    cases h
    exact hp
  | c :: rest, hstep, p, q, hp, h => by
    obtain ⟨p1, hc, hrest⟩ := option_loop_cons_inv h
    exact option_loop_preserves P rest (fun d hd => hstep d (List.mem_cons_of_mem _ hd)) p1 q
      (hstep c (List.mem_cons_self _ _) p p1 hp hc) hrest

/-- A property that some option of the command line establishes and no option destroys
holds after the loop. -/
theorem option_loop_establishes (P : params → Prop)
    (hkeep : ∀ c p p1, P p → switch_case p c = .ok p1 → P p1)
    (c0 : Opt) (hset : ∀ p p1, switch_case p c0 = .ok p1 → P p1) :
    ∀ (argv : List Opt), c0 ∈ argv → ∀ p q, option_loop argv p = .ok q → P q
  | [], hmem, _, _, _ => by cases hmem
  | c :: rest, hmem, p, q, h => by
    obtain ⟨p1, hc, hrest⟩ := option_loop_cons_inv h
    rcases List.mem_cons.mp hmem with heq | hin
    · subst heq
      exact option_loop_preserves P rest (fun d _ => hkeep d) p1 q (hset p p1 hc) hrest
    · exact option_loop_establishes P hkeep c0 hset rest hin p1 q hrest

/-- The loop only fails through the `default` branch. -/
theorem option_loop_error_eq :
    ∀ (argv : List Opt) (p : params) (e : Fatal), option_loop argv p = .error e → e = .exit_default
  | [], p, e, h => by rw [option_loop_nil] at h; cases h
  | c :: rest, p, e, h => by
    cases hc : switch_case p c with
    | ok p1 =>
      rw [option_loop_cons_ok hc] at h
      exact option_loop_error_eq rest p1 e h
    | error e1 =>
      rw [option_loop_cons_error hc] at h
      cases h
      cases c <;> simp [switch_case] at hc
      exact hc.symm

/-- On a command line of recognised options the loop runs to its end. -/
theorem option_loop_recognised :
    ∀ (argv : List Opt) (p : params), (∀ c ∈ argv, c ≠ Opt.unrecognised) →
      ∃ q, option_loop argv p = .ok q
  | [], p, _ => ⟨p, rfl⟩
  | c :: rest, p, h => by
    have hc : ∃ p1, switch_case p c = .ok p1 := by
      have := h c (List.mem_cons_self _ _)
      cases c <;> simp [switch_case] at this ⊢
    obtain ⟨p1, hp1⟩ := hc
    obtain ⟨q, hq⟩ := option_loop_recognised rest p1 (fun d hd => h d (List.mem_cons_of_mem _ hd))
    exact ⟨q, by rw [option_loop_cons_ok hp1]; exact hq⟩

/-! ## Facts about the checks -/

/-- What a configuration that passes the seven checks looks like. -/
theorem check_arguments_ok {p q : params} (h : check_arguments p = .ok q) :
    q = p ∧ p.in_geno ≠ none ∧ p.n_ind ≠ 0 ∧ p.n_sites ≠ 0 ∧
      ¬ (p.pos = none ∧ p.max_dist.gt (.ofInt (-1)) = true) ∧
      ¬ (p.call_geno = true ∧ p.in_probs = false) ∧ p.out ≠ none ∧ ¬ p.n_threads < 1 := by
  unfold check_arguments at h
  split_ifs at h with h1 h2 h3 h4 h5 h6 h7 <;> simp [error] at h
  exact ⟨h.symm, h1, h2, h3, h4, h5, h6, h7⟩

/-- The checks only fail through `error`, called with the name of `parse_cmd_args`. -/
theorem check_arguments_error {p : params} {e : Fatal} (h : check_arguments p = .error e) :
    ∃ msg, e = .error FUNCTION msg := by
  unfold check_arguments at h
  split_ifs at h <;> simp [error] at h <;> exact ⟨_, h.symm⟩

/-- A normal return of `run` is a normal end of the loop followed by seven passed checks. -/
theorem run_ok {argv : List Opt} {pars0 q : params} (h : run argv pars0 = .ok q) :
    option_loop argv (init_pars pars0) = .ok q ∧ check_arguments q = .ok q := by
  unfold run parse_cmd_args at h
  cases hl : option_loop argv (init_pars pars0) with
  | ok q1 =>
    rw [hl] at h
    simp only at h
    have := (check_arguments_ok h).1
    subst this
    exact ⟨rfl, h⟩
  | error e => rw [hl] at h; cases h

/-- After a normal end of the loop, `run` is the checks on the parsed configuration. -/
theorem run_of_loop {argv : List Opt} {pars0 q : params}
    (h : option_loop argv (init_pars pars0) = .ok q) : run argv pars0 = check_arguments q := by
  simp [run, parse_cmd_args, h]

/-- The field a `--n_ind` option writes is the conversion of what `atoi` read last. -/
theorem option_loop_n_ind :
    ∀ (argv : List Opt) (p q : params), option_loop argv p = .ok q →
      q.n_ind = (match parsed_n_ind argv with
        | some v => uint64_of_int v
        | none => p.n_ind)
  | [], p, q, h => by
    rw [option_loop_nil] at h
    cases h
    rfl
  | c :: rest, p, q, h => by
    obtain ⟨p1, hc, hrest⟩ := option_loop_cons_inv h
    have ih := option_loop_n_ind rest p1 q hrest
    rw [ih]
    cases c <;> simp [switch_case] at hc <;> subst hc <;> simp only [parsed_n_ind]
    cases parsed_n_ind rest <;> rfl

/-- The field a `--n_sites` option writes is the conversion of what `atoi` read last. -/
theorem option_loop_n_sites :
    ∀ (argv : List Opt) (p q : params), option_loop argv p = .ok q →
      q.n_sites = (match parsed_n_sites argv with
        | some v => uint64_of_int v
        | none => p.n_sites)
  | [], p, q, h => by
    rw [option_loop_nil] at h
    cases h
    rfl
  | c :: rest, p, q, h => by
    obtain ⟨p1, hc, hrest⟩ := option_loop_cons_inv h
    have ih := option_loop_n_sites rest p1 q hrest
    rw [ih]
    cases c <;> simp [switch_case] at hc <;> subst hc <;> simp only [parsed_n_sites]
    cases parsed_n_sites rest <;> rfl

/-- Without `--geno` the loop leaves `in_geno` alone. -/
theorem option_loop_in_geno {argv : List Opt} {p q : params} (hno : ¬ gives_geno argv)
    (h : option_loop argv p = .ok q) : q.in_geno = p.in_geno := by
  refine option_loop_preserves (fun r => r.in_geno = p.in_geno) argv ?_ p q rfl h
  intro c hc r r1 hr hs
  cases c <;> simp [switch_case] at hs <;> subst hs <;> try exact hr
  exact absurd (List.mem_map_of_mem Opt.char hc) hno

/-- Without `--out` the loop leaves `out` alone. -/
theorem option_loop_out {argv : List Opt} {p q : params} (hno : ¬ gives_out argv)
    (h : option_loop argv p = .ok q) : q.out = p.out := by
  refine option_loop_preserves (fun r => r.out = p.out) argv ?_ p q rfl h
  intro c hc r r1 hr hs
  cases c <;> simp [switch_case] at hs <;> subst hs <;> try exact hr
  exact absurd (List.mem_map_of_mem Opt.char hc) hno

/-- Without `--pos` the loop leaves `pos` alone. -/
theorem option_loop_pos {argv : List Opt} {p q : params} (hno : ¬ gives_pos argv)
    (h : option_loop argv p = .ok q) : q.pos = p.pos := by
  refine option_loop_preserves (fun r => r.pos = p.pos) argv ?_ p q rfl h
  intro c hc r r1 hr hs
  cases c <;> simp [switch_case] at hs <;> subst hs <;> try exact hr
  exact absurd (List.mem_map_of_mem Opt.char hc) hno

/-- Without `--probs` the loop leaves `in_probs` alone. -/
theorem option_loop_in_probs {argv : List Opt} {p q : params} (hno : ¬ gives_probs argv)
    (h : option_loop argv p = .ok q) : q.in_probs = p.in_probs := by
  refine option_loop_preserves (fun r => r.in_probs = p.in_probs) argv ?_ p q rfl h
  intro c hc r r1 hr hs
  cases c <;> simp [switch_case] at hs <;> subst hs <;> try exact hr
  exact absurd (List.mem_map_of_mem Opt.char hc) hno

/-- With one of the three calling options the loop ends with `call_geno` set. -/
theorem option_loop_call_geno {argv : List Opt} {p q : params} (hgives : gives_calling argv)
    (h : option_loop argv p = .ok q) : q.call_geno = true := by
  have hkeep : ∀ c r r1, r.call_geno = true → switch_case r c = .ok r1 → r1.call_geno = true := by
    intro c r r1 hr hs
    cases c <;> simp [switch_case] at hs <;> subst hs <;> first | exact hr | rfl
  have hchar : ∀ ch, (ch = 'c' ∨ ch = 'N' ∨ ch = 'C') → gives ch argv → q.call_geno = true := by
    intro ch hch hg
    obtain ⟨c0, hc0, hc0ch⟩ := List.mem_map.mp hg
    refine option_loop_establishes (fun r => r.call_geno = true) hkeep c0 ?_ argv hc0 p q h
    intro r r1 hs
    cases c0 <;> simp [Opt.char] at hc0ch <;> subst hc0ch <;> simp at hch <;>
      simp [switch_case] at hs <;> subst hs <;> rfl
  rcases hgives with hc | hc | hc
  · exact hchar _ (Or.inl rfl) hc
  · exact hchar _ (Or.inr (Or.inl rfl)) hc
  · exact hchar _ (Or.inr (Or.inr rfl)) hc

/-- The loop ends with `max_dist` as it was or as some `--max_dist` option gave it. -/
theorem option_loop_max_dist :
    ∀ (argv : List Opt) (p q : params), option_loop argv p = .ok q →
      q.max_dist = p.max_dist ∨ ∃ v, Opt.max_dist v ∈ argv ∧ q.max_dist = v
  | [], p, q, h => by
    rw [option_loop_nil] at h
    cases h
    exact Or.inl rfl
  | c :: rest, p, q, h => by
    obtain ⟨p1, hc, hrest⟩ := option_loop_cons_inv h
    rcases option_loop_max_dist rest p1 q hrest with heq | ⟨v, hv, hq⟩
    · rw [heq]
      cases c <;> simp [switch_case] at hc <;> subst hc <;> first | exact Or.inl rfl | skip
      exact Or.inr ⟨_, List.mem_cons_self _ _, rfl⟩
    · exact Or.inr ⟨v, List.mem_cons_of_mem _ hv, hq⟩

/-- Every non-negative `double` is greater than `-1`. -/
theorem CDouble.gt_of_ge_zero (d : CDouble) (h : d.ge (.ofInt 0) = true) :
    d.gt (.ofInt (-1)) = true := by
  cases d <;> simp [CDouble.ge, CDouble.gt, CDouble.ofInt] at h ⊢
  linarith

/-- Two options with different option characters can be handled in either order. -/
theorem option_loop_swap (c d : Opt) (hne : c.char ≠ d.char) (rest : List Opt) (p : params) :
    option_loop (c :: d :: rest) p = option_loop (d :: c :: rest) p := by
  cases c <;> cases d <;>
    first
    | exact absurd rfl hne
    | simp [option_loop, switch_case]

/-- The loop gives the same result on two orderings of a command line whose options have
pairwise different option characters. -/
theorem option_loop_perm {a b : List Opt} (h : a.Perm b) :
    (a.map Opt.char).Nodup → ∀ p, option_loop a p = option_loop b p := by
  induction h with
  | nil => intro _ p; rfl
  | cons c _ ih =>
    intro hnd p
    rw [List.map_cons, List.nodup_cons] at hnd
    simp only [option_loop]
    cases switch_case p c with
    | ok p1 => exact ih hnd.2 p1
    | error e => rfl
  | swap c d l =>
    intro hnd p
    simp only [List.map_cons, List.nodup_cons, List.mem_cons, not_or] at hnd
    exact option_loop_swap d c hnd.1.1 l p
  | trans h1 _ ih1 ih2 =>
    intro hnd p
    rw [ih1 hnd p]
    exact ih2 ((h1.map Opt.char).nodup_iff.mp hnd) p

/-! ## The claims on `parse_cmd_args` -/

/-- C1 (the code departs from the claim): `--n_threads -1` is a thread count below 1, read
by `atoi` as the `int` -1, and yet `parse_cmd_args` returns normally on an otherwise
complete command line; the stored thread count is 4294967295, not the integer given. -/
theorem C1_negative_n_threads_accepted :
    isCInt (-1) ∧ (-1 : Int) < 1 ∧
    run [.geno "g", .n_ind 1, .n_sites 1, .pos "p", .out "o", .n_threads (-1)] uninitialised =
      .ok { in_geno := some "g", in_bin := false, in_probs := false, in_logscale := false,
            n_ind := 1, n_sites := 1, pos := some "p", max_dist := .finite 100,
            min_r2 := .finite (1 / 2), call_geno := false, N_thresh := .finite 0,
            call_thresh := .finite 0, out := some "o", n_threads := 4294967295,
            version := false, verbose := 1 } := by
  refine ⟨by decide, by decide, ?_⟩
  simp [run, parse_cmd_args, option_loop, switch_case, init_pars, check_arguments,
    uint64_of_int, uint_of_int]

/-- C2, as stated, fails twice. With no `--pos`, the negative value `--max_dist -0.5`
still raises the position-file error; and with a non-negative `max_dist` (here 5) the
error raised is the one of an earlier check when that check fails (here `--geno`). -/
theorem C2_counterexample :
    (¬ gives_pos [.geno "g", .n_ind 1, .n_sites 1, .out "o", .max_dist (.finite (-1 / 2))] ∧
      (CDouble.finite (-1 / 2)).lt (.ofInt 0) = true ∧
      run [.geno "g", .n_ind 1, .n_sites 1, .out "o", .max_dist (.finite (-1 / 2))] uninitialised =
        error FUNCTION "position file necessary in order to filter by maximum distance!") ∧
    (¬ gives_pos [.max_dist (.finite 5)] ∧
      (CDouble.finite 5).ge (.ofInt 0) = true ∧
      run [.max_dist (.finite 5)] uninitialised =
        error FUNCTION "genotype input file (--geno) missing!") := by
  refine ⟨⟨by decide, ?_, ?_⟩, ⟨by decide, ?_, ?_⟩⟩
  · simp [CDouble.lt, CDouble.gt, CDouble.ofInt]
    norm_num
  · simp [run, parse_cmd_args, option_loop, switch_case, init_pars, check_arguments,
      uint64_of_int, CDouble.gt, CDouble.ofInt]
  · simp [CDouble.ge, CDouble.gt, CDouble.ofInt]
  · simp [run, parse_cmd_args, option_loop, switch_case, init_pars, check_arguments]

/-- C2 (amended): on a command line of recognised options without `--pos`, let `q` be the
configuration the option loop ends with. If `q.max_dist > -1`, which every non-negative
value is, `parse_cmd_args` does not return normally: it raises the position-file error
when the three earlier checks (`--geno`, `n_ind`, `n_sites`) pass, and otherwise the error
of the first of these three checks that fails. If `q.max_dist` is not greater than `-1`,
the position-file error is not raised. -/
theorem C2_position_file_check (argv : List Opt) (pars0 : params)
    (hrec : recognised argv) (hpos : ¬ gives_pos argv) :
    ∃ q, option_loop argv (init_pars pars0) = .ok q ∧
      (∀ d : CDouble, d.ge (.ofInt 0) = true → d.gt (.ofInt (-1)) = true) ∧
      (q.max_dist.gt (.ofInt (-1)) = true →
        (∀ r, run argv pars0 ≠ .ok r) ∧
        (q.in_geno ≠ none → q.n_ind ≠ 0 → q.n_sites ≠ 0 →
          run argv pars0 =
            error FUNCTION "position file necessary in order to filter by maximum distance!") ∧
        (q.in_geno = none →
          run argv pars0 = error FUNCTION "genotype input file (--geno) missing!") ∧
        (q.in_geno ≠ none → q.n_ind = 0 →
          run argv pars0 = error FUNCTION "number of individuals (--n_ind) missing!") ∧
        (q.in_geno ≠ none → q.n_ind ≠ 0 → q.n_sites = 0 →
          run argv pars0 = error FUNCTION "number of sites (--n_sites) missing!")) ∧
      (q.max_dist.gt (.ofInt (-1)) = false →
        run argv pars0 ≠
          error FUNCTION "position file necessary in order to filter by maximum distance!") := by
  obtain ⟨q, hq⟩ := option_loop_recognised argv (init_pars pars0) hrec
  have hqpos : q.pos = none := option_loop_pos hpos hq
  refine ⟨q, hq, CDouble.gt_of_ge_zero, ?_, ?_⟩
  · intro hgt
    refine ⟨?_, ?_, ?_, ?_, ?_⟩
    · intro r hr
      obtain ⟨hl, hck⟩ := run_ok hr
      have : r = q := by rw [hq] at hl; cases hl; rfl
      subst this
      exact (check_arguments_ok hck).2.2.2.2.1 ⟨hqpos, hgt⟩
    · intro h1 h2 h3
      rw [run_of_loop hq]
      simp [check_arguments, h1, h2, h3, hqpos, hgt]
    · intro h1
      rw [run_of_loop hq]
      simp [check_arguments, h1]
    · intro h1 h2
      rw [run_of_loop hq]
      simp [check_arguments, h1, h2]
    · intro h1 h2 h3
      rw [run_of_loop hq]
      simp [check_arguments, h1, h2, h3]
  · intro hngt
    rw [run_of_loop hq]
    unfold check_arguments
    split_ifs <;> simp_all [error]

/-- C2 (amended), at `--geno g --n_ind 1 --n_sites 1 --out o --max_dist -1`. -/
theorem C2_position_file_check_witness :
    recognised [.geno "g", .n_ind 1, .n_sites 1, .out "o", .max_dist (.finite (-1))] ∧
    ¬ gives_pos [.geno "g", .n_ind 1, .n_sites 1, .out "o", .max_dist (.finite (-1))] ∧
    ∃ q, option_loop [.geno "g", .n_ind 1, .n_sites 1, .out "o", .max_dist (.finite (-1))]
        (init_pars uninitialised) = .ok q ∧
      (∀ d : CDouble, d.ge (.ofInt 0) = true → d.gt (.ofInt (-1)) = true) ∧
      (q.max_dist.gt (.ofInt (-1)) = true →
        (∀ r, run [.geno "g", .n_ind 1, .n_sites 1, .out "o", .max_dist (.finite (-1))]
          uninitialised ≠ .ok r) ∧
        (q.in_geno ≠ none → q.n_ind ≠ 0 → q.n_sites ≠ 0 →
          run [.geno "g", .n_ind 1, .n_sites 1, .out "o", .max_dist (.finite (-1))] uninitialised =
            error FUNCTION "position file necessary in order to filter by maximum distance!") ∧
        (q.in_geno = none →
          run [.geno "g", .n_ind 1, .n_sites 1, .out "o", .max_dist (.finite (-1))] uninitialised =
            error FUNCTION "genotype input file (--geno) missing!") ∧
        (q.in_geno ≠ none → q.n_ind = 0 →
          run [.geno "g", .n_ind 1, .n_sites 1, .out "o", .max_dist (.finite (-1))] uninitialised =
            error FUNCTION "number of individuals (--n_ind) missing!") ∧
        (q.in_geno ≠ none → q.n_ind ≠ 0 → q.n_sites = 0 →
          run [.geno "g", .n_ind 1, .n_sites 1, .out "o", .max_dist (.finite (-1))] uninitialised =
            error FUNCTION "number of sites (--n_sites) missing!")) ∧
      (q.max_dist.gt (.ofInt (-1)) = false →
        run [.geno "g", .n_ind 1, .n_sites 1, .out "o", .max_dist (.finite (-1))] uninitialised ≠
          error FUNCTION "position file necessary in order to filter by maximum distance!") :=
  ⟨by decide, by decide,
    C2_position_file_check _ uninitialised (by decide) (by decide)⟩

/-- C3: a configuration `parse_cmd_args` accepts has `call_geno` only with `in_probs`; a
command line that gives `--call_geno`, `--N_thresh` or `--call_thresh` and no `--probs`
never returns normally, and made of recognised options it ends in a call of `error`. -/
theorem C3_call_geno_needs_probs (argv : List Opt) (pars0 : params) :
    (∀ q, run argv pars0 = .ok q → q.call_geno = true → q.in_probs = true) ∧
    (gives_calling argv → ¬ gives_probs argv →
      (∀ q, run argv pars0 ≠ .ok q) ∧
      (recognised argv → ∃ msg, run argv pars0 = error FUNCTION msg)) := by
  have hacc : ∀ q, run argv pars0 = .ok q → q.call_geno = true → q.in_probs = true := by
    intro q hq hcall
    have h := (check_arguments_ok (run_ok hq).2).2.2.2.2.2.1
    cases hp : q.in_probs with
    | true => rfl
    | false => exact absurd ⟨hcall, hp⟩ h
  refine ⟨hacc, ?_⟩
  intro hgives hno
  have hnot : ∀ q, run argv pars0 ≠ .ok q := by
    intro q hq
    have hcall := option_loop_call_geno hgives (run_ok hq).1
    have hprobs := option_loop_in_probs hno (run_ok hq).1
    rw [hacc q hq hcall] at hprobs
    simp [init_pars] at hprobs
  refine ⟨hnot, ?_⟩
  intro hrec
  obtain ⟨q, hq⟩ := option_loop_recognised argv (init_pars pars0) hrec
  cases hr : run argv pars0 with
  | ok r => exact absurd hr (hnot r)
  | error e =>
    rw [run_of_loop hq] at hr
    obtain ⟨msg, hmsg⟩ := check_arguments_error hr
    exact ⟨msg, by rw [hmsg]; rfl⟩

/-- C3, at `--geno g --n_ind 1 --n_sites 1 --pos p --out o --N_thresh 3`. -/
theorem C3_call_geno_needs_probs_witness :
    gives_calling [.geno "g", .n_ind 1, .n_sites 1, .pos "p", .out "o", .N_thresh (.finite 3)] ∧
    ¬ gives_probs [.geno "g", .n_ind 1, .n_sites 1, .pos "p", .out "o", .N_thresh (.finite 3)] ∧
    recognised [.geno "g", .n_ind 1, .n_sites 1, .pos "p", .out "o", .N_thresh (.finite 3)] ∧
    (∀ q, run [.geno "g", .n_ind 1, .n_sites 1, .pos "p", .out "o", .N_thresh (.finite 3)]
      uninitialised ≠ .ok q) ∧
    (∃ msg, run [.geno "g", .n_ind 1, .n_sites 1, .pos "p", .out "o", .N_thresh (.finite 3)]
      uninitialised = error FUNCTION msg) :=
  have hg : gives_calling
      [.geno "g", .n_ind 1, .n_sites 1, .pos "p", .out "o", .N_thresh (.finite 3)] :=
    by decide
  have hp : ¬ gives_probs
      [.geno "g", .n_ind 1, .n_sites 1, .pos "p", .out "o", .N_thresh (.finite 3)] := by
    decide
  have hr : recognised
      [.geno "g", .n_ind 1, .n_sites 1, .pos "p", .out "o", .N_thresh (.finite 3)] := by
    simp [recognised]
  ⟨hg, hp, hr, ((C3_call_geno_needs_probs _ uninitialised).2 hg hp).1,
    ((C3_call_geno_needs_probs _ uninitialised).2 hg hp).2 hr⟩

/-- C4: after `init_pars` and the option loop, a non-zero `N_thresh` or `call_thresh`
comes with `call_geno` set. -/
theorem C4_thresholds_imply_call_geno (argv : List Opt) (pars0 q : params)
    (hloop : option_loop argv (init_pars pars0) = .ok q)
    (hthr : q.N_thresh.ne (.ofInt 0) = true ∨ q.call_thresh.ne (.ofInt 0) = true) :
    q.call_geno = true := by
  have hinv : (q.N_thresh = .finite 0 ∧ q.call_thresh = .finite 0) ∨ q.call_geno = true := by
    refine option_loop_preserves
      (fun r => (r.N_thresh = .finite 0 ∧ r.call_thresh = .finite 0) ∨ r.call_geno = true)
      argv ?_ (init_pars pars0) q (Or.inl ⟨rfl, rfl⟩) hloop
    intro c _ r r1 hr hs
    cases c <;> simp [switch_case] at hs <;> subst hs <;> first | exact hr | exact Or.inr rfl
  rcases hinv with ⟨hN, hC⟩ | hcall
  · rw [hN, hC] at hthr
    simp [CDouble.ne, CDouble.ofInt] at hthr
  · exact hcall

/-- C4, at `--call_thresh 0.75`. -/
theorem C4_thresholds_imply_call_geno_witness :
    option_loop [.call_thresh (.finite (3 / 4))] (init_pars uninitialised) =
      .ok { init_pars uninitialised with call_thresh := .finite (3 / 4), call_geno := true } ∧
    (CDouble.finite (3 / 4)).ne (.ofInt 0) = true ∧
    ({ init_pars uninitialised with
        call_thresh := .finite (3 / 4), call_geno := true } : params).call_geno = true :=
  have hne : (CDouble.finite (3 / 4)).ne (.ofInt 0) = true := by
    simp [CDouble.ne, CDouble.ofInt]
  ⟨rfl, hne, C4_thresholds_imply_call_geno [.call_thresh (.finite (3 / 4))] uninitialised _
    rfl (Or.inr hne)⟩

/-- C5: on a command line of recognised options, `parse_cmd_args` returns normally only
if `--geno` and `--out` were given and the stored `n_ind` and `n_sites` are non-zero; if
`--geno` or `--out` is missing, or `--n_ind` or `--n_sites` is missing or read as 0 by
`atoi`, the call ends in a call of `error`. -/
theorem C5_required_inputs (argv : List Opt) (pars0 : params) (hrec : recognised argv) :
    (∀ q, run argv pars0 = .ok q →
      gives_geno argv ∧ gives_out argv ∧ q.n_ind ≠ 0 ∧ q.n_sites ≠ 0) ∧
    ((¬ gives_geno argv ∨ ¬ gives_out argv ∨
        parsed_n_ind argv = none ∨ parsed_n_ind argv = some 0 ∨
        parsed_n_sites argv = none ∨ parsed_n_sites argv = some 0) →
      ∃ msg, run argv pars0 = error FUNCTION msg) := by
  have hacc : ∀ q, run argv pars0 = .ok q →
      gives_geno argv ∧ gives_out argv ∧ q.n_ind ≠ 0 ∧ q.n_sites ≠ 0 := by
    intro q hq
    obtain ⟨hl, hck⟩ := run_ok hq
    obtain ⟨-, hg, hn, hs, -, -, ho, -⟩ := check_arguments_ok hck
    refine ⟨?_, ?_, hn, hs⟩
    · by_contra hno
      exact hg (by rw [option_loop_in_geno hno hl]; rfl)
    · by_contra hno
      exact ho (by rw [option_loop_out hno hl]; rfl)
  refine ⟨hacc, ?_⟩
  intro hmiss
  obtain ⟨q, hq⟩ := option_loop_recognised argv (init_pars pars0) hrec
  cases hr : run argv pars0 with
  | error e =>
    rw [run_of_loop hq] at hr
    obtain ⟨msg, hmsg⟩ := check_arguments_error hr
    exact ⟨msg, by rw [hmsg]; rfl⟩
  | ok r =>
    exfalso
    obtain ⟨hg, ho, hn, hs⟩ := hacc r hr
    have hni := option_loop_n_ind argv _ r (run_ok hr).1
    have hsi := option_loop_n_sites argv _ r (run_ok hr).1
    rcases hmiss with h | h | h | h | h | h
    · exact h hg
    · exact h ho
    · rw [h] at hni; exact hn hni
    · rw [h] at hni; exact hn hni
    · rw [h] at hsi; exact hs hsi
    · rw [h] at hsi; exact hs hsi

/-- C5, at `--geno g --n_ind 0 --n_sites 4 --pos p --out o`. -/
theorem C5_required_inputs_witness :
    recognised [.geno "g", .n_ind 0, .n_sites 4, .pos "p", .out "o"] ∧
    parsed_n_ind [.geno "g", .n_ind 0, .n_sites 4, .pos "p", .out "o"] = some 0 ∧
    ∃ msg, run [.geno "g", .n_ind 0, .n_sites 4, .pos "p", .out "o"] uninitialised =
      error FUNCTION msg :=
  ⟨by decide, rfl,
    (C5_required_inputs [.geno "g", .n_ind 0, .n_sites 4, .pos "p", .out "o"] uninitialised
      (by decide)).2 (Or.inr (Or.inr (Or.inr (Or.inl rfl))))⟩

/-- C8: with `error` ending the program, a command line of recognised options makes
`parse_cmd_args` report at most one message, the one of the first violated condition in
the fixed order of the seven, and it returns normally exactly when none is violated. -/
theorem C8_first_violated_condition (argv : List Opt) (pars0 : params)
    (hrec : recognised argv) :
    ∃ q, option_loop argv (init_pars pars0) = .ok q ∧
      (reported (run argv pars0)).length ≤ 1 ∧
      reported (run argv pars0) = (violated q).take 1 ∧
      (run argv pars0 =
        match (violated q).head? with
        | some msg => error FUNCTION msg
        | none => .ok q) ∧
      ((∃ r, run argv pars0 = .ok r) ↔ violated q = []) := by
  obtain ⟨q, hq⟩ := option_loop_recognised argv (init_pars pars0) hrec
  refine ⟨q, hq, ?_⟩
  rw [run_of_loop hq]
  unfold check_arguments violated conditions
  by_cases h1 : q.in_geno = none
  · simp [error, reported, List.filter_cons, h1]
  by_cases h2 : q.n_ind = 0
  · simp [error, reported, List.filter_cons, h1, h2]
  by_cases h3 : q.n_sites = 0
  · simp [error, reported, List.filter_cons, h1, h2, h3]
  by_cases h4 : q.pos = none ∧ q.max_dist.gt (.ofInt (-1)) = true
  · simp [error, reported, List.filter_cons, h1, h2, h3, h4]
  have h4b : (decide (q.pos = none) && q.max_dist.gt (.ofInt (-1))) = false := by
    cases hg : q.max_dist.gt (.ofInt (-1)) <;> simp_all
  by_cases h5 : q.call_geno = true ∧ q.in_probs = false
  · simp [error, reported, List.filter_cons, h1, h2, h3, h4, h4b, h5]
  have h5b : (q.call_geno && !q.in_probs) = false := by
    cases hc : q.call_geno <;> cases hp : q.in_probs <;> simp_all
  by_cases h6 : q.out = none
  · simp [error, reported, List.filter_cons, h1, h2, h3, h4, h4b, h5, h5b, h6]
  by_cases h7 : q.n_threads < 1
  · simp [error, reported, List.filter_cons, h1, h2, h3, h4, h4b, h5, h5b, h6, h7]
  · simp [error, reported, List.filter_cons, h1, h2, h3, h4, h4b, h5, h5b, h6, h7]

/-- C8, at `--n_ind 2 --out o` (genotype file and number of sites missing as well). -/
theorem C8_first_violated_condition_witness :
    recognised [.n_ind 2, .out "o"] ∧
    ∃ q, option_loop [.n_ind 2, .out "o"] (init_pars uninitialised) = .ok q ∧
      (reported (run [.n_ind 2, .out "o"] uninitialised)).length ≤ 1 ∧
      reported (run [.n_ind 2, .out "o"] uninitialised) = (violated q).take 1 ∧
      (run [.n_ind 2, .out "o"] uninitialised =
        match (violated q).head? with
        | some msg => error FUNCTION msg
        | none => .ok q) ∧
      ((∃ r, run [.n_ind 2, .out "o"] uninitialised = .ok r) ↔ violated q = []) :=
  ⟨by decide,
    C8_first_violated_condition [.n_ind 2, .out "o"] uninitialised (by decide)⟩

/-- C9: `init_pars` sets `max_dist` to 100; a command line with neither `--max_dist` nor
`--pos` never makes `parse_cmd_args` return normally; and a command line without `--pos`
that is accepted gives `--max_dist` with a value that is not greater than `-1`, which is
the stored one. -/
theorem C9_distance_filter_default (argv : List Opt) (pars0 : params)
    (hpos : ¬ gives_pos argv) :
    (init_pars pars0).max_dist = .finite 100 ∧
    (¬ gives_max_dist argv → ∀ q, run argv pars0 ≠ .ok q) ∧
    (∀ q, run argv pars0 = .ok q →
      ∃ v, Opt.max_dist v ∈ argv ∧ q.max_dist = v ∧ v.gt (.ofInt (-1)) = false) := by
  have hacc : ∀ q, run argv pars0 = .ok q →
      ∃ v, Opt.max_dist v ∈ argv ∧ q.max_dist = v ∧ v.gt (.ofInt (-1)) = false := by
    intro q hq
    obtain ⟨hl, hck⟩ := run_ok hq
    have hqpos : q.pos = none := option_loop_pos hpos hl
    have hngt : q.max_dist.gt (.ofInt (-1)) = false := by
      cases hg : q.max_dist.gt (.ofInt (-1)) with
      | false => rfl
      | true => exact absurd ⟨hqpos, hg⟩ (check_arguments_ok hck).2.2.2.2.1
    rcases option_loop_max_dist argv _ q hl with heq | ⟨v, hv, hqv⟩
    · rw [heq] at hngt
      simp [init_pars, CDouble.gt, CDouble.ofInt] at hngt
      norm_num at hngt
    · exact ⟨v, hv, hqv, by rw [← hqv]; exact hngt⟩
  refine ⟨rfl, ?_, hacc⟩
  intro hno q hq
  obtain ⟨v, hv, -, -⟩ := hacc q hq
  exact hno (List.mem_map_of_mem Opt.char hv)

/-- C9, at `--geno g --n_ind 1 --n_sites 1 --out o --max_dist -1`, which is accepted. -/
theorem C9_distance_filter_default_witness :
    ¬ gives_pos [.geno "g", .n_ind 1, .n_sites 1, .out "o", .max_dist (.finite (-1))] ∧
    run [.geno "g", .n_ind 1, .n_sites 1, .out "o", .max_dist (.finite (-1))] uninitialised =
      .ok { init_pars uninitialised with
        in_geno := some "g", n_ind := 1, n_sites := 1, out := some "o",
        max_dist := .finite (-1) } ∧
    ∃ v, Opt.max_dist v ∈
        [Opt.geno "g", .n_ind 1, .n_sites 1, .out "o", .max_dist (.finite (-1))] ∧
      ({ init_pars uninitialised with
        in_geno := some "g", n_ind := 1, n_sites := 1, out := some "o",
        max_dist := .finite (-1) } : params).max_dist = v ∧
      v.gt (.ofInt (-1)) = false :=
  have hp : ¬ gives_pos
      [.geno "g", .n_ind 1, .n_sites 1, .out "o", .max_dist (.finite (-1))] := by
    decide
  have hr : run [.geno "g", .n_ind 1, .n_sites 1, .out "o", .max_dist (.finite (-1))]
      uninitialised =
      .ok { init_pars uninitialised with
        in_geno := some "g", n_ind := 1, n_sites := 1, out := some "o",
        max_dist := .finite (-1) } := by
    simp [run, parse_cmd_args, option_loop, switch_case, init_pars, check_arguments,
      uint64_of_int, CDouble.gt, CDouble.ofInt]
  ⟨hp, hr, (C9_distance_filter_default _ uninitialised hp).2.2 _ hr⟩

/-- C10: two command lines of recognised options that hold the same options with the
same values, each option at most once, in two orders, leave the option loop started from
`init_pars` with the same `params`, and `parse_cmd_args` with the same outcome. -/
theorem C10_option_order (argv1 argv2 : List Opt) (pars0 : params)
    (hrec : recognised argv1) (hperm : argv1.Perm argv2)
    (honce : (argv1.map Opt.char).Nodup) :
    (∃ q, option_loop argv1 (init_pars pars0) = .ok q ∧
      option_loop argv2 (init_pars pars0) = .ok q) ∧
    run argv1 pars0 = run argv2 pars0 := by
  have heq := option_loop_perm hperm honce (init_pars pars0)
  obtain ⟨q, hq⟩ := option_loop_recognised argv1 (init_pars pars0) hrec
  refine ⟨⟨q, hq, by rw [← heq]; exact hq⟩, ?_⟩
  unfold run parse_cmd_args
  rw [heq]

/-- C10, at `--geno g --n_ind 3 --call_geno --probs` and the same options reversed. -/
theorem C10_option_order_witness :
    recognised [.geno "g", .n_ind 3, .call_geno, .probs] ∧
    [Opt.geno "g", .n_ind 3, .call_geno, .probs].Perm [.probs, .call_geno, .n_ind 3, .geno "g"] ∧
    ([Opt.geno "g", .n_ind 3, .call_geno, .probs].map Opt.char).Nodup ∧
    (∃ q, option_loop [.geno "g", .n_ind 3, .call_geno, .probs] (init_pars uninitialised) = .ok q ∧
      option_loop [.probs, .call_geno, .n_ind 3, .geno "g"] (init_pars uninitialised) = .ok q) ∧
    run [.geno "g", .n_ind 3, .call_geno, .probs] uninitialised =
      run [.probs, .call_geno, .n_ind 3, .geno "g"] uninitialised :=
  have hr : recognised [.geno "g", .n_ind 3, .call_geno, .probs] := by decide
  have hp : [Opt.geno "g", .n_ind 3, .call_geno, .probs].Perm
      [.probs, .call_geno, .n_ind 3, .geno "g"] :=
    (List.reverse_perm [Opt.probs, .call_geno, .n_ind 3, .geno "g"])
  have hn : ([Opt.geno "g", .n_ind 3, .call_geno, .probs].map Opt.char).Nodup := by
    simp [Opt.char]
  ⟨hr, hp, hn, C10_option_order _ _ uninitialised hr hp hn⟩

/-! ## The claims on the LD statistics and the pair enumeration -/

namespace HaplotypeFrequencyVector

/-- For a valid vector with both sites polymorphic, `D_max` is positive and bounds `|D|`,
and `D²` is at most the product of the four marginals. -/
theorem D_bounds (h : HaplotypeFrequencyVector) (hv : h.valid)
    (h1 : 0 < h.p1_allele1 ∧ h.p1_allele1 < 1) (h2 : 0 < h.p2_allele1 ∧ h.p2_allele1 < 1) :
    0 < h.D_max ∧ -h.D_max ≤ h.D ∧ h.D ≤ h.D_max ∧
      h.D ^ 2 ≤ h.p1_allele1 * (1 - h.p1_allele1) * h.p2_allele1 * (1 - h.p2_allele1) := by
  obtain ⟨v11, v12, v21, v22, vsum⟩ := hv
  obtain ⟨a0, a1⟩ := h1
  obtain ⟨b0, b1⟩ := h2
  have hD : h.D = h.p11 - h.p1_allele1 * h.p2_allele1 := rfl
  have ha : h.p1_allele1 = h.p11 + h.p12 := rfl
  have hb : h.p2_allele1 = h.p11 + h.p21 := rfl
  have e1 : 0 < h.p1_allele1 * (1 - h.p2_allele1) := mul_pos a0 (by linarith)
  have e2 : 0 < (1 - h.p1_allele1) * h.p2_allele1 := mul_pos (by linarith) b0
  have e3 : 0 < h.p1_allele1 * h.p2_allele1 := mul_pos a0 b0
  have e4 : 0 < (1 - h.p1_allele1) * (1 - h.p2_allele1) := mul_pos (by linarith) (by linarith)
  unfold D_max
  split_ifs with hpos
  · have u1 : h.D ≤ h.p1_allele1 * (1 - h.p2_allele1) := by rw [hD]; nlinarith
    have u2 : h.D ≤ (1 - h.p1_allele1) * h.p2_allele1 := by rw [hD]; nlinarith
    refine ⟨lt_min e1 e2, ?_, le_min u1 u2, ?_⟩
    · have := lt_min e1 e2
      linarith
    · have := mul_le_mul u1 u2 hpos e1.le
      nlinarith
  · push_neg at hpos
    have u1 : -h.D ≤ h.p1_allele1 * h.p2_allele1 := by rw [hD]; nlinarith
    have u2 : -h.D ≤ (1 - h.p1_allele1) * (1 - h.p2_allele1) := by rw [hD]; nlinarith
    have hm := le_min u1 u2
    refine ⟨lt_min e3 e4, by linarith, ?_, ?_⟩
    · have := lt_min e3 e4
      linarith
    · have := mul_le_mul u1 u2 (by linarith) e3.le
      nlinarith

end HaplotypeFrequencyVector

/-- C6: for a valid haplotype-frequency vector with both sites polymorphic, `D′` lies in
`[-1, 1]` (its denominator `D_max` being positive) and `r²` is defined and lies in `[0, 1]`. -/
theorem C6_LD_statistics_range (h : HaplotypeFrequencyVector) (hv : h.valid)
    (h1 : 0 < h.p1_allele1 ∧ h.p1_allele1 < 1) (h2 : 0 < h.p2_allele1 ∧ h.p2_allele1 < 1) :
    0 < h.D_max ∧ -1 ≤ h.D_prime ∧ h.D_prime ≤ 1 ∧
      ∃ r, h.r2 = some r ∧ 0 ≤ r ∧ r ≤ 1 := by
  obtain ⟨hmax, hlo, hhi, hsq⟩ := h.D_bounds hv h1 h2
  have hden : 0 < h.p1_allele1 * (1 - h.p1_allele1) * h.p2_allele1 * (1 - h.p2_allele1) := by
    have := mul_pos (mul_pos (mul_pos h1.1 (sub_pos.mpr h1.2)) h2.1) (sub_pos.mpr h2.2)
    exact this
  refine ⟨hmax, ?_, ?_, ?_⟩
  · unfold HaplotypeFrequencyVector.D_prime
    rw [le_div_iff₀ hmax]
    linarith
  · unfold HaplotypeFrequencyVector.D_prime
    rw [div_le_one hmax]
    exact hhi
  · refine ⟨_, ?_, div_nonneg (sq_nonneg _) hden.le, (div_le_one hden).mpr hsq⟩
    unfold HaplotypeFrequencyVector.r2
    rw [if_neg]
    rintro (h0 | h0 | h0 | h0)
    · exact absurd h0 (ne_of_gt h1.1)
    · exact absurd h0 (ne_of_lt h1.2)
    · exact absurd h0 (ne_of_gt h2.1)
    · exact absurd h0 (ne_of_lt h2.2)

/-- C6, at the vector `(2/5, 1/10, 1/5, 3/10)`. -/
theorem C6_LD_statistics_range_witness :
    (⟨2 / 5, 1 / 10, 1 / 5, 3 / 10⟩ : HaplotypeFrequencyVector).valid ∧
    (0 < (⟨2 / 5, 1 / 10, 1 / 5, 3 / 10⟩ : HaplotypeFrequencyVector).p1_allele1 ∧
      (⟨2 / 5, 1 / 10, 1 / 5, 3 / 10⟩ : HaplotypeFrequencyVector).p1_allele1 < 1) ∧
    (0 < (⟨2 / 5, 1 / 10, 1 / 5, 3 / 10⟩ : HaplotypeFrequencyVector).p2_allele1 ∧
      (⟨2 / 5, 1 / 10, 1 / 5, 3 / 10⟩ : HaplotypeFrequencyVector).p2_allele1 < 1) ∧
    (0 < (⟨2 / 5, 1 / 10, 1 / 5, 3 / 10⟩ : HaplotypeFrequencyVector).D_max ∧
      -1 ≤ (⟨2 / 5, 1 / 10, 1 / 5, 3 / 10⟩ : HaplotypeFrequencyVector).D_prime ∧
      (⟨2 / 5, 1 / 10, 1 / 5, 3 / 10⟩ : HaplotypeFrequencyVector).D_prime ≤ 1 ∧
      ∃ r, (⟨2 / 5, 1 / 10, 1 / 5, 3 / 10⟩ : HaplotypeFrequencyVector).r2 = some r ∧
        0 ≤ r ∧ r ≤ 1) :=
  have hv : (⟨2 / 5, 1 / 10, 1 / 5, 3 / 10⟩ : HaplotypeFrequencyVector).valid := by
    norm_num [HaplotypeFrequencyVector.valid]
  have h1 : 0 < (⟨2 / 5, 1 / 10, 1 / 5, 3 / 10⟩ : HaplotypeFrequencyVector).p1_allele1 ∧
      (⟨2 / 5, 1 / 10, 1 / 5, 3 / 10⟩ : HaplotypeFrequencyVector).p1_allele1 < 1 := by
    norm_num [HaplotypeFrequencyVector.p1_allele1]
  have h2 : 0 < (⟨2 / 5, 1 / 10, 1 / 5, 3 / 10⟩ : HaplotypeFrequencyVector).p2_allele1 ∧
      (⟨2 / 5, 1 / 10, 1 / 5, 3 / 10⟩ : HaplotypeFrequencyVector).p2_allele1 < 1 := by
    norm_num [HaplotypeFrequencyVector.p2_allele1]
  ⟨hv, h1, h2, C6_LD_statistics_range _ hv h1 h2⟩

namespace PairwiseDispatcher

/-- The window of site `i` over sorted positions: exactly the sites within `max_dist`. -/
theorem mem_window (d : ℚ) (i : Nat) (pi : ℚ) :
    ∀ (rest : List ℚ) (j : Nat), rest.Sorted (· ≤ ·) → ∀ a b,
      ((a, b) ∈ window d i pi j rest ↔
        a = i ∧ ∃ k pj, b = j + k ∧ rest[k]? = some pj ∧ pj - pi ≤ d)
  | [], j, _, a, b => by simp [window]
  | x :: xs, j, hs, a, b => by
    obtain ⟨hx, hxs⟩ := List.sorted_cons.mp hs
    unfold window
    split_ifs with hin
    · rw [List.mem_cons, mem_window d i pi xs (j + 1) hxs a b]
      constructor
      · rintro (heq | ⟨ha, k, pj, hb, hk, hle⟩)
        · cases heq
          exact ⟨rfl, 0, x, rfl, List.getElem?_cons_zero, hin⟩
        · exact ⟨ha, k + 1, pj, by omega, by simpa using hk, hle⟩
      · rintro ⟨ha, k, pj, hb, hk, hle⟩
        cases k with
        | zero => left; subst ha; subst hb; rfl
        | succ k => right; exact ⟨ha, k, pj, by omega, by simpa using hk, hle⟩
    · simp only [List.not_mem_nil, false_iff]
      rintro ⟨-, k, pj, -, hk, hle⟩
      have hmem : pj ∈ x :: xs := List.getElem?_mem hk
      have hxle : x ≤ pj := by
        rcases List.mem_cons.mp hmem with h | h
        · exact h ▸ le_refl _
        · exact hx pj h
      exact hin (by linarith)

/-- The scan over sorted positions: exactly the pairs of sites within `max_dist`. -/
theorem mem_scan (d : ℚ) :
    ∀ (l : List ℚ) (i : Nat), l.Sorted (· ≤ ·) → ∀ a b,
      ((a, b) ∈ scan (some d) i l ↔
        ∃ k m pa pb, a = i + k ∧ b = i + m ∧ k < m ∧
          l[k]? = some pa ∧ l[m]? = some pb ∧ pb - pa ≤ d)
  | [], i, _, a, b => by simp [scan]
  | x :: xs, i, hs, a, b => by
    obtain ⟨-, hxs⟩ := List.sorted_cons.mp hs
    unfold scan
    rw [List.mem_append, mem_window d i x xs (i + 1) hxs a b, mem_scan d xs (i + 1) hxs a b]
    constructor
    · rintro (⟨ha, k, pj, hb, hk, hle⟩ | ⟨k, m, pa, pb, ha, hb, hkm, hk, hm, hle⟩)
      · exact ⟨0, k + 1, x, pj, ha, by omega, by omega, List.getElem?_cons_zero,
          by simpa using hk, hle⟩
      · exact ⟨k + 1, m + 1, pa, pb, by omega, by omega, by omega, by simpa using hk,
          by simpa using hm, hle⟩
    · rintro ⟨k, m, pa, pb, ha, hb, hkm, hk, hm, hle⟩
      cases m with
      | zero => omega
      | succ m =>
        cases k with
        | zero =>
          left
          simp at hk
          subst hk
          exact ⟨ha, m, pb, by omega, by simpa using hm, hle⟩
        | succ k =>
          right
          exact ⟨k, m, pa, pb, by omega, by omega, by omega, by simpa using hk,
            by simpa using hm, hle⟩

end PairwiseDispatcher

/-- C7: on a non-decreasing position array and with `max_dist ≥ 0`, the dispatcher emits
exactly the pairs `(i, j)` with `i < j` and `position[j] − position[i] ≤ max_dist`; on
positions `[0, 10, 30, 1000]` with `max_dist = 50` it emits `(0,1), (0,2), (1,2)` and no
pair with site 3. -/
theorem C7_distance_bounded_pairs (position : List ℚ) (max_dist : ℚ)
    (hsorted : position.Sorted (· ≤ ·)) (_hdist : 0 ≤ max_dist) :
    (∀ i j, (i, j) ∈ PairwiseDispatcher.emitted position (some max_dist) ↔
      i < j ∧ ∃ pi pj, position[i]? = some pi ∧ position[j]? = some pj ∧ pj - pi ≤ max_dist) ∧
    PairwiseDispatcher.emitted [0, 10, 30, 1000] (some 50) = [(0, 1), (0, 2), (1, 2)] ∧
    (∀ i, (i, 3) ∉ PairwiseDispatcher.emitted [0, 10, 30, 1000] (some 50) ∧
      (3, i) ∉ PairwiseDispatcher.emitted [0, 10, 30, 1000] (some 50)) := by
  have hex : PairwiseDispatcher.emitted [0, 10, 30, 1000] (some 50) = [(0, 1), (0, 2), (1, 2)] := by
    norm_num [PairwiseDispatcher.emitted, PairwiseDispatcher.scan, PairwiseDispatcher.window]
  refine ⟨?_, hex, ?_⟩
  · intro i j
    unfold PairwiseDispatcher.emitted
    rw [PairwiseDispatcher.mem_scan max_dist position 0 hsorted i j]
    constructor
    · rintro ⟨k, m, pa, pb, ha, hb, hkm, hk, hm, hle⟩
      rw [Nat.zero_add] at ha hb
      subst ha
      subst hb
      exact ⟨hkm, pa, pb, hk, hm, hle⟩
    · rintro ⟨hij, pa, pb, hk, hm, hle⟩
      exact ⟨i, j, pa, pb, by omega, by omega, hij, hk, hm, hle⟩
  · intro i
    rw [hex]
    simp

/-- C7, at positions `[0, 10, 30, 1000]` and `max_dist = 50`. -/
theorem C7_distance_bounded_pairs_witness :
    ([0, 10, 30, 1000] : List ℚ).Sorted (· ≤ ·) ∧ (0 : ℚ) ≤ 50 ∧
    (∀ i j, (i, j) ∈ PairwiseDispatcher.emitted [0, 10, 30, 1000] (some 50) ↔
      i < j ∧ ∃ pi pj, ([0, 10, 30, 1000] : List ℚ)[i]? = some pi ∧
        ([0, 10, 30, 1000] : List ℚ)[j]? = some pj ∧ pj - pi ≤ 50) :=
  have hs : ([0, 10, 30, 1000] : List ℚ).Sorted (· ≤ ·) := by
    norm_num [List.Sorted]
  ⟨hs, by norm_num, (C7_distance_bounded_pairs [0, 10, 30, 1000] 50 hs (by norm_num)).1⟩

end NgsLD
